import Mathlib

/-!
Shallow embedding of `tiktok_tg.py`, a Telegram bot that relays TikTok
links: link matcher, identity formatter, resolver client, transfer
manager and the per-message delivery orchestrator, together with
theorems settling the specification claims.
-/

set_option maxRecDepth 8192

namespace TiktokTg

/-! ## Python value model

The resolver works on parsed JSON.  We model Python values reachable
from `r.json()` as a JSON tree, Python truthiness, and the dictionary
method `.get`, which raises `AttributeError` on any non-dictionary
receiver (modelled as `Except.error`).
-/

inductive Json where
  | null
  | bool (b : Bool)
  | num (n : Int)
  | str (s : String)
  | arr (elems : List Json)
  | obj (fields : List (String × Json))
  deriving Repr

/-- Python truthiness of a JSON value (`bool(x)`). -/
def pyTruthy : Json → Bool
  | .null => false
  | .bool b => b
  | .num n => n != 0
  | .str s => s != ""
  | .arr xs => !xs.isEmpty
  | .obj fs => !fs.isEmpty

/-- Python `x.get(k)`: dictionary lookup returning `None` when the key is
absent, and `AttributeError` when `x` is not a dictionary. -/
def pyGet : Json → String → Except Unit Json
  | .obj fs, k => .ok ((fs.lookup k).getD .null)
  | _, _ => .error ()

/-! ## Resolver client (`resolve_tiktok_direct_url`, lines 78-99)

The request phase (`session.get`, status check, `r.json()`) sits inside a
`try/except` that converts every exception into `None`.  The extraction
phase (lines 94-99) sits OUTSIDE that handler: `(data or {}).get("data")`
and `d.get(key)` raise `AttributeError` on truthy non-dictionary values,
and that exception leaves the function.
-/

/-- Lines 95-98: `for key in ("hdplay", "play", "wmplay"): v = d.get(key);
if v: return v`, unrolled; `return None` when every probe is falsy. -/
def probeKeys (d : Json) : Except Unit (Option Json) :=
  match pyGet d "hdplay" with
  | .error e => .error e
  | .ok v1 =>
    if pyTruthy v1 then .ok (some v1)
    else
      match pyGet d "play" with
      | .error e => .error e
      | .ok v2 =>
        if pyTruthy v2 then .ok (some v2)
        else
          match pyGet d "wmplay" with
          | .error e => .error e
          | .ok v3 => if pyTruthy v3 then .ok (some v3) else .ok none

/-- Line 94 `d = (data or {}).get("data") or {}` followed by the key
probes; runs outside the `try/except`, so an `error` propagates. -/
def extractMedia (data : Json) : Except Unit (Option Json) :=
  let base := if pyTruthy data then data else .obj []
  match pyGet base "data" with
  | .error e => .error e
  | .ok dv => probeKeys (if pyTruthy dv then dv else .obj [])

/-- One resolver invocation, as observed by the bot: everything the
network decides — whether the request raises, the HTTP status, whether
`r.json()` raises, and the parsed body when it does not. -/
structure ResolverBehavior where
  reqRaises : Bool
  status : Nat
  bodyRaises : Bool
  body : Json

/-- Outcome of the resolver client: a returned value (`None` or a media
value) or an exception escaping the function. -/
inductive ROutcome where
  | ret (v : Option Json)
  | raised
  deriving Repr

/-- Lines 78-99.  Request failures, a non-200 status and body-parse
failures all return `None` (caught inside the `try`); the extraction
phase runs unprotected afterwards. -/
def resolve_tiktok_direct_url (b : ResolverBehavior) : ROutcome :=
  if b.reqRaises then .ret none
  else if b.status != 200 then .ret none
  else if b.bodyRaises then .ret none
  else
    match extractMedia b.body with
    | .ok v => .ret v
    | .error _ => .raised

/-- `lookup` with Python dictionary semantics on an association list. -/
def lookupJson (d : List (String × Json)) (k : String) : Json :=
  (d.lookup k).getD .null

/-- The ordered field preference the spec states: `hdplay`, then `play`,
then `wmplay`, first truthy value wins, else no media found. -/
def specPreference (d : List (String × Json)) : Option Json :=
  if pyTruthy (lookupJson d "hdplay") then some (lookupJson d "hdplay")
  else if pyTruthy (lookupJson d "play") then some (lookupJson d "play")
  else if pyTruthy (lookupJson d "wmplay") then some (lookupJson d "wmplay")
  else none

/-- `specPreference` lifted to the whole body: look inside `data` when it
is a dictionary, otherwise there is no candidate at all. -/
def specPreferenceJ : Json → Option Json
  | .obj d => specPreference d
  | _ => none

/-- The `data` field of the body when the body is a dictionary, `None`
otherwise. -/
def dataField : Json → Json
  | .obj fs => (fs.lookup "data").getD .null
  | _ => .null

/-- A value on which the code path `(x or {}).get(...)` cannot raise:
either a dictionary or a falsy value (replaced by `{}`). -/
def dictLike (j : Json) : Bool :=
  match j with
  | .obj _ => true
  | _ => !pyTruthy j

/-! ## Link matcher (`URL_RE`, `_is_tiktok_link`,
`_extract_tiktok_url_from_text`, lines 35-61)

`URL_RE = re.compile(r"https?://[^\s)]+", re.IGNORECASE)` and
`finditer` are modelled as a left-to-right scan: at each position try to
match the literal scheme case-insensitively, then a maximal non-empty
run of characters outside the class `[\s)]`; on a match, emit it and
continue after it, otherwise advance one character.  The model covers
ASCII texts: the whitespace class is modelled over its ASCII members
(space, tab, LF, CR, VT, FF), `.lower()` over its ASCII action, and the
NFKC netloc check of `_checknetloc`, which only ever fires on
non-ASCII netlocs, is omitted.

`urlparse` (CPython 3.11) can raise `ValueError` on netlocs with
square brackets — reachable from `URL_RE` matches — and the
`try/except` of `_is_tiktok_link` turns that into `False`.  The raise
happens on an unmatched bracket, and, via `_check_bracketed_host`, on
a first bracketed segment that is neither an IPvFuture literal nor a
string `ipaddress.ip_address` accepts as IPv6; both validations are
modelled below following the CPython sources.
-/

/-- ASCII members of the regex class `\s`. -/
def isSpaceCh (c : Char) : Bool :=
  c == ' ' || c == '\t' || c == '\n' || c == '\r' ||
    c == Char.ofNat 11 || c == Char.ofNat 12

/-- A character admitted by the class `[^\s)]`. -/
def urlCharOk (c : Char) : Bool :=
  !isSpaceCh c && c != ')'

/-- Case-insensitive literal match: the pattern is given in lowercase;
on success return the consumed original characters and the remainder. -/
def matchCI : List Char → List Char → Option (List Char × List Char)
  | [], cs => some ([], cs)
  | _ :: _, [] => none
  | p :: ps, c :: cs =>
    if c.toLower == p then
      match matchCI ps cs with
      | some (a, r) => some (c :: a, r)
      | none => none
    else none

/-- After the literal `http`: the optional `s` (greedy, with regex
backtracking) followed by the literal `://`.  `pre` carries the
already-consumed characters. -/
def matchSep (pre rest : List Char) : Option (List Char × List Char) :=
  match rest with
  | c :: cs2 =>
    if c.toLower == 's' then
      match matchCI [':', '/', '/'] cs2 with
      | some (m, r) => some (pre ++ c :: m, r)
      | none =>
        match matchCI [':', '/', '/'] rest with
        | some (m, r) => some (pre ++ m, r)
        | none => none
    else
      match matchCI [':', '/', '/'] rest with
      | some (m, r) => some (pre ++ m, r)
      | none => none
  | [] => none

/-- Attempt `URL_RE` at the head of `cs`: `http`, an optional `s`,
`://`, then a maximal non-empty `[^\s)]+` run.  Returns the matched
characters and the remainder. -/
def matchUrlAt (cs : List Char) : Option (List Char × List Char) :=
  match matchCI ['h', 't', 't', 'p'] cs with
  | none => none
  | some (pre, rest) =>
    match matchSep pre rest with
    | none => none
    | some (scheme, rest2) =>
      let body := rest2.takeWhile urlCharOk
      if body.isEmpty then none
      else some (scheme ++ body, rest2.drop body.length)

/-- Fuelled left-to-right scan implementing `URL_RE.finditer`.  Each
step either emits a match and resumes after it or advances one
character, so `cs.length` fuel always suffices (see
`scanURLsF_fuel`). -/
def scanURLsF : Nat → List Char → List String
  | 0, _ => []
  | _, [] => []
  | fuel + 1, c :: cs =>
    match matchUrlAt (c :: cs) with
    | some (m, r) => String.mk m :: scanURLsF fuel r
    | none => scanURLsF fuel cs

/-- All `URL_RE` matches of the text, left to right. -/
def scanURLs (cs : List Char) : List String :=
  scanURLsF cs.length cs

/-- CPython scheme characters: ASCII letters, digits and `+`, `-`, `.`. -/
def isSchemeChar (c : Char) : Bool :=
  c.isAlphanum || c == '+' || c == '-' || c == '.'

/-- Split a character list at its first colon. -/
def splitColon : List Char → Option (List Char × List Char)
  | [] => none
  | c :: cs =>
    if c == ':' then some ([], cs)
    else
      match splitColon cs with
      | some (a, b) => some (c :: a, b)
      | none => none

/-- CPython `urlsplit` scheme removal: when the text before the first
colon is non-empty, starts with an ASCII letter and consists of scheme
characters, drop it together with the colon; otherwise keep the URL. -/
def stripScheme (cs : List Char) : List Char :=
  match splitColon cs with
  | some (a, b) =>
    match a with
    | [] => cs
    | c0 :: rest => if c0.isAlpha && rest.all isSchemeChar then b else cs
  | none => cs

/-- Python `partition(sep)` on character lists: split at the first
occurrence of `sep`, `none` when `sep` is absent. -/
def splitFirst (sep : Char) : List Char → Option (List Char × List Char)
  | [] => none
  | c :: cs =>
    if c == sep then some ([], cs)
    else
      match splitFirst sep cs with
      | some (a, b) => some (c :: a, b)
      | none => none

/-- Python `str.split(sep)` on character lists. -/
def splitAll (sep : Char) : List Char → List (List Char)
  | [] => [[]]
  | c :: cs =>
    if c == sep then [] :: splitAll sep cs
    else
      match splitAll sep cs with
      | r :: rs => (c :: r) :: rs
      | [] => [[c]]

/-- The hex digits the `ipaddress` hextet parser accepts. -/
def isHexDigitCh (c : Char) : Bool :=
  c.isDigit || ('a' ≤ c && c ≤ 'f') || ('A' ≤ c && c ≤ 'F')

/-- `ipaddress._parse_octet`: 1-3 ASCII decimal digits, no leading
zero except `0` itself, value at most 255. -/
def octetValid (p : List Char) : Bool :=
  !p.isEmpty && p.all Char.isDigit && p.length ≤ 3 &&
    (p == ['0'] || p.headD '0' != '0') &&
    p.foldl (fun acc c => acc * 10 + (c.toNat - '0'.toNat)) 0 ≤ 255

/-- `ipaddress.IPv4Address` on a string: no slash, exactly four valid
octets. -/
def ipv4StrValid (cs : List Char) : Bool :=
  !cs.contains '/' &&
    (let octets := splitAll '.' cs
     octets.length == 4 && octets.all octetValid)

/-- `ipaddress._parse_hextet`: 1-4 hex digits (the empty string fails
its integer conversion). -/
def hextetValid (p : List Char) : Bool :=
  p.all isHexDigitCh && p.length ≤ 4 && !p.isEmpty

/-- The `::`-placement logic of `_BaseV6._ip_int_from_string`, driven
only for validity: at most one interior empty part; a leading or
trailing empty part only next to it; at least one part skipped; every
part that would be parsed is a valid hextet. -/
def ipv6PartsValid (parts : List (List Char)) : Bool :=
  let n := parts.length
  let mids := (parts.drop 1).dropLast
  match (mids.filter (fun p => p.isEmpty)).length with
  | 0 => n == 8 && parts.all hextetValid
  | 1 =>
    let i := 1 + ((mids.findIdx? (fun p => p.isEmpty)).getD 0)
    let hi0 := i
    let lo0 := n - i - 1
    let headE := (parts.headD []).isEmpty
    let tailE := (parts.getLastD []).isEmpty
    if headE && !(hi0 - 1 == 0) then false
    else if tailE && !(lo0 - 1 == 0) then false
    else
      let hi := if headE then hi0 - 1 else hi0
      let lo := if tailE then lo0 - 1 else lo0
      if 8 ≤ hi + lo then false
      else
        ((parts.take hi).all hextetValid) &&
        ((parts.drop (n - lo)).all hextetValid)
  | _ => false

/-- `_BaseV6._ip_int_from_string` validity on the unscoped address
text: at least three colon-separated parts; a dotted final part must
be a valid IPv4 address and is replaced by two always-valid hextets
(their `%x` renderings); at most nine parts; then the `::` logic. -/
def ipv6AddrValid (cs : List Char) : Bool :=
  if cs.isEmpty then false
  else
    let parts := splitAll ':' cs
    if parts.length < 3 then false
    else
      let lastP := parts.getLastD []
      if lastP.contains '.' then
        if ipv4StrValid lastP then
          let parts2 := parts.dropLast ++ [['0'], ['0']]
          if 9 < parts2.length then false else ipv6PartsValid parts2
        else false
      else if 9 < parts.length then false
      else ipv6PartsValid parts

/-- `IPv6Address.__init__` on a string: no slash; an optional scope
after the first `%` must be non-empty and contain no further `%`; the
rest must be a valid address. -/
def ipv6StrValid (cs : List Char) : Bool :=
  if cs.contains '/' then false
  else
    match splitFirst '%' cs with
    | none => ipv6AddrValid cs
    | some (addr, scope) =>
      !scope.isEmpty && !scope.contains '%' && ipv6AddrValid addr

/-- CPython 3.11 `_check_bracketed_host`: a segment starting with `v`
must match `\Av[a-fA-F0-9]+\..+\Z` (IPvFuture); anything else must be
accepted by `ipaddress.ip_address` and not be IPv4 — since IPv4
strings never parse as IPv6, acceptance is IPv6 validity. -/
def bracketedHostOk (host : List Char) : Bool :=
  match host with
  | 'v' :: rest =>
    match splitFirst '.' rest with
    | some (hex, tail) => !hex.isEmpty && hex.all isHexDigitCh && !tail.isEmpty
    | none => false
  | _ => if ipv4StrValid host then false else ipv6StrValid host

/-- `netloc.partition('[')[2].partition(']')[0]`: the first bracketed
segment of the netloc. -/
def bracketedHost (netloc : List Char) : List Char :=
  match splitFirst '[' netloc with
  | some (_, after) =>
    match splitFirst ']' after with
    | some (inner, _) => inner
    | none => after
  | none => []

/-- CPython 3.11 `urlsplit`, reduced to what `_is_tiktok_link`
observes on ASCII `URL_RE` matches: the netloc (after a leading `//`
in the scheme-stripped URL, up to the next `/`, `?` or `#`), or `none`
for the `ValueError` raised on an unmatched square bracket or, via
`_check_bracketed_host`, on an invalid first bracketed segment. -/
def urlparse_netloc (cs : List Char) : Option (List Char) :=
  match stripScheme cs with
  | '/' :: '/' :: rest =>
    let netloc := rest.takeWhile (fun c => c != '/' && c != '?' && c != '#')
    if (netloc.contains '[' && !netloc.contains ']') ||
        (netloc.contains ']' && !netloc.contains '[') then none
    else if netloc.contains '[' && netloc.contains ']' then
      if bracketedHostOk (bracketedHost netloc) then some netloc else none
    else some netloc
  | _ => some []

/-- Lines 37-43: the allow-list of TikTok hostnames. -/
def _ALLOWED_TT_HOSTS : List String :=
  ["tiktok.com", "www.tiktok.com", "m.tiktok.com", "vm.tiktok.com",
    "vt.tiktok.com"]

/-- Lines 45-52: host of the URL via `urlparse(u).netloc`, lowercased
(`.lower()`, modelled on its ASCII action), trailing `:port` removed
(`host.split(":")[0]`), membership in the allow-list.  The `except`
branch is reachable: `urlparse` raises `ValueError` on bracket
problems in the netloc, and the code turns that into `False`. -/
def _is_tiktok_link (u : String) : Bool :=
  match urlparse_netloc u.data with
  | none => false
  | some netloc =>
    let host := netloc.map Char.toLower
    let host := if host.contains ':' then host.takeWhile (fun c => c != ':') else host
    _ALLOWED_TT_HOSTS.contains (String.mk host)

/-- Lines 54-61: `if not text: return None`, then the first `URL_RE`
match accepted by `_is_tiktok_link`, if any. -/
def _extract_tiktok_url_from_text : Option String → Option String
  | none => none
  | some t => if t == "" then none else (scanURLs t.data).find? _is_tiktok_link

/-! ## Identity formatter (`_display_name_from_msg`, lines 63-74)
-/

/-- Sender identity fields of a Telegram user.  Optional string fields
model `None`-able attributes; Python truthiness treats `None` and `""`
alike. -/
structure User where
  username : Option String
  first_name : Option String
  last_name : Option String
  id : Int

/-- The chat a message arrived in; only its kind matters. -/
structure Chat where
  type : String

/-- The inbound message fields the handler reads. -/
structure Msg where
  text : Option String
  chat_id : Int
  chat : Option Chat
  from_user : Option User

/-- Python truthiness of an optional string. -/
def optTruthy : Option String → Bool
  | none => false
  | some s => s != ""

/-- Line 73 generator: the truthy entries among first and last name. -/
def nameParts (u : User) : List String :=
  ([u.first_name, u.last_name].filterMap id).filter (fun s => s != "")

/-- Python `" ".join(parts)`. -/
def joinSpace : List String → String
  | [] => ""
  | [s] => s
  | s :: rest => s ++ " " ++ joinSpace rest

/-- Lines 63-74: prefer `@username`, then `First Last`, then the
numeric id; `"unknown"` when there is no sender record. -/
def _display_name_from_msg (msg : Msg) : String :=
  match msg.from_user with
  | none => "unknown"
  | some u =>
    if optTruthy u.username then "@" ++ u.username.getD ""
    else
      let name := joinSpace (nameParts u)
      if name != "" then name else toString u.id

/-! ## Transfer manager (`download_to_tempfile`, lines 101-117)

The network side of one download is everything the code observes:
whether `session.get` raises, the HTTP status, and the stream of chunk
reads, each either data or a raised error.  The unique temporary path
of the invocation is an abstract constant.  `os.remove` is modelled as
succeeding (a removal failure is an OS condition outside the program).
-/

/-- One event of `r.content.iter_chunked(...)`. -/
inductive StreamEv where
  | chunk (data : List Nat)
  | err

/-- Network behaviour of one transfer. -/
structure DownloadBehavior where
  reqRaises : Bool
  status : Nat
  events : List StreamEv

/-- The path `tempfile.NamedTemporaryFile(delete=False, suffix=".mp4")`
produced for this invocation. -/
def tmpPath : String := "/tmp/tmpabc123.mp4"

/-- Lines 107-108: write chunks sequentially after `acc` until the
stream ends or raises; returns the bytes written and whether it
raised. -/
def writeStream : List StreamEv → List Nat → List Nat × Bool
  | [], acc => (acc, false)
  | .chunk d :: rest, acc => writeStream rest (acc ++ d)
  | .err :: _, acc => (acc, true)

/-- Bytes of the stream up to its first error (all of it when none). -/
def streamBytes : List StreamEv → List Nat
  | [] => []
  | .chunk d :: rest => d ++ streamBytes rest
  | .err :: _ => []

/-- Whether the stream raises at some point. -/
def streamHasErr : List StreamEv → Bool
  | [] => false
  | .chunk _ :: rest => streamHasErr rest
  | .err :: _ => true

/-- The `try` body, lines 104-110: result paired with the bytes sitting
in the temporary file at the moment the body exits.  The file is
created empty on entry (line 102); `raise_for_status` raises for any
status of 400 or above. -/
def dlBody (b : DownloadBehavior) : Except Unit String × List Nat :=
  if b.reqRaises then (.error (), [])
  else if 400 ≤ b.status then (.error (), [])
  else
    match writeStream b.events [] with
    | (content, true) => (.error (), content)
    | (content, false) => (.ok tmpPath, content)

/-- Lines 101-117: on success close and return the path, the file kept
with everything streamed; on any exception close, remove the file and
re-raise.  The second component is the file at `tmpPath` after the call
(`none` means no file remains). -/
def download_to_tempfile (b : DownloadBehavior) :
    Except Unit String × Option (List Nat) :=
  match dlBody b with
  | (.ok p, content) => (.ok p, some content)
  | (.error e, _) => (.error e, none)

/-! ## Delivery orchestrator (`handle_message`, lines 128-178)

The handler is modelled as a pure function of the message and of the
behaviour of every collaborator it talks to, returning the ordered list
of outbound calls it attempts plus whether it returns normally or lets
an exception escape.  Failed attempts still appear in the list (the
call was made); failures of `delete` and `send_chat_action` are caught
and ignored by the code, so those behaviour flags do not change the
trace.
-/

/-- One outbound call attempted by the handler. -/
inductive Eff where
  | deleteMessage
  | sendChatAction (chat_id : Int)
  | resolveRequest (url : String)
  | sendMessage (chat_id : Int) (text : String)
  | sendVideoUrl (chat_id : Int) (video : Json) (caption : String)
  | downloadRequest (video : Json)
  | sendVideoBytes (chat_id : Int) (video : List Nat) (caption : String)
  | removeFile (path : String)
  deriving Repr

/-- Whether `handle_message` returns or an exception escapes it. -/
inductive HOutcome where
  | normal
  | raised
  deriving DecidableEq

/-- Behaviour of every collaborator during one `handle_message` run. -/
structure Env where
  deleteRaises : Bool
  actionRaises : Bool
  resolver : ResolverBehavior
  refSendRaises : Bool
  dl : DownloadBehavior
  uploadRaises : Bool

/-- Line 157: the single user-facing failure notice.  Its sixth
character is U+2019, a typographic right quote, not an ASCII
apostrophe. -/
def couldNotResolveText : String :=
  "Couldn’t resolve that TikTok link. Try a different one?"

/-- Lines 141-146: the moderation delete is attempted exactly in group
and supergroup chats; its failure is logged and ignored. -/
def modEffs (msg : Msg) : List Eff :=
  match msg.chat with
  | some c =>
    if c.type == "group" || c.type == "supergroup" then [.deleteMessage]
    else []
  | none => []

/-- Lines 137-178, the handler body once a TikTok URL has been matched:
caption, best-effort moderation delete, best-effort chat action,
resolve; on no media a single notice; otherwise reference send, falling
back to download then byte upload with the temporary file removed in
`finally`. -/
def handleMatched (msg : Msg) (env : Env) (tiktok_url : String) :
    List Eff × HOutcome :=
  match resolve_tiktok_direct_url env.resolver with
  | .raised =>
    (modEffs msg ++
      [.sendChatAction msg.chat_id, .resolveRequest tiktok_url], .raised)
  | .ret none =>
    (modEffs msg ++
      [.sendChatAction msg.chat_id, .resolveRequest tiktok_url,
        .sendMessage msg.chat_id couldNotResolveText], .normal)
  | .ret (some direct_url) =>
    if !env.refSendRaises then
      (modEffs msg ++
        [.sendChatAction msg.chat_id, .resolveRequest tiktok_url,
          .sendVideoUrl msg.chat_id direct_url
            ("Send By : " ++ _display_name_from_msg msg)], .normal)
    else
      match download_to_tempfile env.dl with
      | (.error _, _) =>
        (modEffs msg ++
          [.sendChatAction msg.chat_id, .resolveRequest tiktok_url,
            .sendVideoUrl msg.chat_id direct_url
              ("Send By : " ++ _display_name_from_msg msg),
            .downloadRequest direct_url], .raised)
      | (.ok p, file) =>
        (modEffs msg ++
          [.sendChatAction msg.chat_id, .resolveRequest tiktok_url,
            .sendVideoUrl msg.chat_id direct_url
              ("Send By : " ++ _display_name_from_msg msg),
            .downloadRequest direct_url,
            .sendVideoBytes msg.chat_id (file.getD [])
              ("Send By : " ++ _display_name_from_msg msg),
            .removeFile p],
          if env.uploadRaises then .raised else .normal)

/-- Lines 128-178.  The guard of lines 130-135 discards messages with
no (truthy) text or no allow-listed URL; otherwise the matched body
runs. -/
def handle_message (msg : Msg) (env : Env) : List Eff × HOutcome :=
  if !optTruthy msg.text then ([], .normal)
  else
    match _extract_tiktok_url_from_text msg.text with
    | none => ([], .normal)
    | some tiktok_url => handleMatched msg env tiktok_url

/-- Whether an outbound call is a plain-text message. -/
def isSendMessage : Eff → Bool
  | .sendMessage _ _ => true
  | _ => false

/-- Whether an outbound call delivers a video (by URL or by bytes). -/
def isSendVideo : Eff → Bool
  | .sendVideoUrl _ _ _ => true
  | .sendVideoBytes _ _ _ => true
  | _ => false

/-- The caption of a video delivery, `none` for any other call. -/
def captionOf : Eff → Option String
  | .sendVideoUrl _ _ cap => some cap
  | .sendVideoBytes _ _ cap => some cap
  | _ => none

/-! ## Concrete instances used to exercise the theorems
-/

/-- A sender with a handle. -/
def userAlice : User := ⟨some "alice", some "Alice", none, 5⟩

/-- A sender with names only. -/
def userAnnLee : User := ⟨none, some "Ann", some "Lee", 6⟩

/-- A sender whose truthy fields are exhausted down to the id. -/
def userIdOnly : User := ⟨some "", some "", none, 42⟩

/-- A direct-chat message carrying one short TikTok link. -/
def msgDirect : Msg :=
  { text := some "check this out https://vm.tiktok.com/ZMxyz/"
    chat_id := 7
    chat := some ⟨"private"⟩
    from_user := some userAlice }

/-- A message with no URL at all. -/
def msgNoLink : Msg :=
  { text := some "hello there, no links"
    chat_id := 3
    chat := none
    from_user := some userAnnLee }

/-- A message whose first URL is foreign, whose second is a TikTok
host followed by a bracket netloc `urlparse` rejects with
`ValueError`, and whose third, mixed-case URL is a TikTok link with a
port. -/
def msgTwoUrls : Msg :=
  { text := some
      "x HTTP://example.com/a http://tiktok.com:[80 hTTpS://VM.TikTok.com:443/Zxy z"
    chat_id := 9
    chat := some ⟨"group"⟩
    from_user := none }

/-- A message whose only URL has an unmatched bracket in its netloc:
`urlparse` raises, the code returns `False`, and the message is
discarded. -/
def msgBracket : Msg :=
  { text := some "see http://tiktok.com:[80 ok"
    chat_id := 4
    chat := some ⟨"group"⟩
    from_user := some userAlice }

/-- A resolver response offering an HD URL. -/
def resolverHd : ResolverBehavior :=
  ⟨false, 200, false,
    .obj [("data", .obj [("hdplay", .str "https://cdn/x.mp4"),
                          ("play", .str "https://cdn/y.mp4")])]⟩

/-- A resolver response with an empty `data` object. -/
def resolverEmpty : ResolverBehavior :=
  ⟨false, 200, false, .obj [("data", .obj [])]⟩

/-- A download whose stream delivers two chunks and succeeds. -/
def dlOk : DownloadBehavior := ⟨false, 200, [.chunk [9, 9], .chunk [7]]⟩

/-- Collaborators all succeeding, resolver finding HD media. -/
def envRefOk : Env := ⟨false, false, resolverHd, false, dlOk, false⟩

/-- Collaborators all succeeding, resolver finding nothing. -/
def envUnresolved : Env := ⟨false, false, resolverEmpty, false, dlOk, false⟩

/-- Reference send raises, download succeeds, byte upload raises. -/
def envUploadFail : Env := ⟨false, false, resolverHd, true, dlOk, true⟩

/-! # Helper lemmas
-/

/-- The streaming loop appends exactly the bytes of the stream up to
its first error, and reports whether one occurred. -/
theorem writeStream_spec : ∀ (evs : List StreamEv) (acc : List Nat),
    writeStream evs acc = (acc ++ streamBytes evs, streamHasErr evs) := by
  intro evs
  induction evs with
  | nil => intro acc; simp [writeStream, streamBytes, streamHasErr]
  | cons e rest ih =>
    intro acc
    cases e with
    | chunk d => simp [writeStream, streamBytes, streamHasErr, ih]
    | err => simp [writeStream, streamBytes, streamHasErr]

/-- `Nat.toDigitsCore` never shrinks its accumulator. -/
theorem toDigitsCore_length_le (b : Nat) :
    ∀ (fuel n : Nat) (ds : List Char),
      ds.length ≤ (Nat.toDigitsCore b fuel n ds).length := by
  intro fuel
  induction fuel with
  | zero => intro n ds; simp [Nat.toDigitsCore]
  | succ f ih =>
    intro n ds
    simp only [Nat.toDigitsCore]
    split
    · simp
    · exact Nat.le_trans (by simp) (ih _ _)

/-- With positive fuel, `Nat.toDigitsCore` emits at least one digit. -/
theorem toDigitsCore_length_lt (b f n : Nat) (ds : List Char)
    (hf : 0 < f) : ds.length < (Nat.toDigitsCore b f n ds).length := by
  cases f with
  | zero => omega
  | succ g =>
    simp only [Nat.toDigitsCore]
    split
    · simp
    · exact Nat.lt_of_lt_of_le (by simp) (toDigitsCore_length_le b g _ _)

/-- Decimal representations of naturals are never empty. -/
theorem natRepr_length_pos (n : Nat) : 0 < (Nat.repr n).length := by
  have h := toDigitsCore_length_lt 10 (n + 1) n [] (Nat.succ_pos n)
  simpa [Nat.repr, Nat.toDigits, List.asString, String.length] using h

/-- A string with positive length is not the empty string. -/
theorem string_len_pos_ne_empty {s : String} (h : 0 < s.length) :
    s ≠ "" := by
  intro he
  subst he
  exact absurd h (by decide)

/-- `str(i)` on a Python integer has at least one character. -/
theorem intToString_length_pos (i : Int) : 0 < (toString i).length := by
  cases i with
  | ofNat m => exact natRepr_length_pos m
  | negSucc m =>
    show 0 < ("-" ++ toString (m + 1)).length
    rw [String.length_append]
    have h1 : ("-" : String).length = 1 := rfl
    omega

/-- `str(i)` on a Python integer is never empty. -/
theorem intToString_ne_empty (i : Int) : toString i ≠ "" :=
  string_len_pos_ne_empty (intToString_length_pos i)

/-- `" ".join` of a non-empty list of non-empty strings is non-empty. -/
theorem joinSpace_ne_empty : ∀ (parts : List String),
    parts ≠ [] → (∀ s ∈ parts, s ≠ "") → joinSpace parts ≠ "" := by
  intro parts
  match parts with
  | [] => intro h _; exact absurd rfl h
  | [s] => intro _ hall; simpa [joinSpace] using hall s (by simp)
  | s :: t :: rest =>
    intro _ _
    show s ++ " " ++ joinSpace (t :: rest) ≠ ""
    apply string_len_pos_ne_empty
    rw [String.length_append, String.length_append]
    have : (" " : String).length = 1 := rfl
    omega

/-- Every entry of `nameParts` is a non-empty string. -/
theorem nameParts_nonempty_strings (u : User) :
    ∀ s ∈ nameParts u, s ≠ "" := by
  intro s hs
  have h := (List.mem_filter.mp hs).2
  simpa using h

/-- The identity formatter is total: it never yields the empty
string. -/
theorem display_name_ne_empty (msg : Msg) :
    _display_name_from_msg msg ≠ "" := by
  unfold _display_name_from_msg
  cases msg.from_user with
  | none => decide
  | some u =>
    show (if optTruthy u.username = true then "@" ++ u.username.getD ""
          else
            if (joinSpace (nameParts u) != "") = true then
              joinSpace (nameParts u)
            else toString u.id) ≠ ""
    by_cases hu : optTruthy u.username = true
    · rw [if_pos hu]
      apply string_len_pos_ne_empty
      rw [String.length_append]
      have h1 : ("@" : String).length = 1 := rfl
      omega
    · rw [if_neg hu]
      split
      · next hname => simpa using hname
      · exact intToString_ne_empty u.id

/-- `find?` over a decomposed list whose earlier entries all fail the
predicate returns the decomposition point. -/
theorem find?_append_first (p : String → Bool) :
    ∀ (pre : List String) (u : String) (suf : List String),
      (∀ v ∈ pre, p v = false) → p u = true →
      (pre ++ u :: suf).find? p = some u := by
  intro pre
  induction pre with
  | nil => intro u suf _ hu; simp [List.find?, hu]
  | cons v rest ih =>
    intro u suf hpre hu
    have hv : p v = false := hpre v (by simp)
    simpa [List.find?, hv] using ih u suf (fun w hw => hpre w (by simp [hw])) hu

/-- A successful case-insensitive literal match consumes exactly the
pattern length. -/
theorem matchCI_rest_len (p : List Char) :
    ∀ (cs a r : List Char), matchCI p cs = some (a, r) →
      p.length + r.length = cs.length := by
  induction p with
  | nil =>
    intro cs a r h
    simp [matchCI] at h
    obtain ⟨-, hr⟩ := h
    subst hr
    simp
  | cons q qs ih =>
    intro cs a r h
    cases cs with
    | nil => simp [matchCI] at h
    | cons c cs2 =>
      simp only [matchCI] at h
      by_cases hc : (c.toLower == q) = true
      · rw [if_pos hc] at h
        cases hmc : matchCI qs cs2 with
        | none => rw [hmc] at h; simp at h
        | some pr =>
          obtain ⟨a2, r2⟩ := pr
          rw [hmc] at h
          simp at h
          have hlen := ih cs2 a2 r2 hmc
          obtain ⟨-, hr⟩ := h
          subst hr
          simp only [List.length_cons]
          omega
      · rw [if_neg hc] at h
        simp at h

/-- The separator step consumes at least the three `://` characters. -/
theorem matchSep_rest_le (pre rest s r2 : List Char)
    (h : matchSep pre rest = some (s, r2)) : r2.length + 3 ≤ rest.length := by
  cases rest with
  | nil => simp [matchSep] at h
  | cons c cs2 =>
    unfold matchSep at h
    dsimp only at h
    by_cases hc : (c.toLower == 's') = true
    · rw [if_pos hc] at h
      cases h1 : matchCI [':', '/', '/'] cs2 with
      | some pr =>
        obtain ⟨m, r⟩ := pr
        rw [h1] at h
        simp at h
        have hlen := matchCI_rest_len [':', '/', '/'] cs2 m r h1
        obtain ⟨-, hr⟩ := h
        subst hr
        simp only [List.length_cons] at hlen ⊢
        omega
      | none =>
        rw [h1] at h
        cases h2 : matchCI [':', '/', '/'] (c :: cs2) with
        | none => rw [h2] at h; simp at h
        | some pr =>
          obtain ⟨m, r⟩ := pr
          rw [h2] at h
          simp at h
          have hlen := matchCI_rest_len [':', '/', '/'] (c :: cs2) m r h2
          obtain ⟨-, hr⟩ := h
          subst hr
          simp only [List.length_cons] at hlen ⊢
          omega
    · rw [if_neg hc] at h
      cases h2 : matchCI [':', '/', '/'] (c :: cs2) with
      | none => rw [h2] at h; simp at h
      | some pr =>
        obtain ⟨m, r⟩ := pr
        rw [h2] at h
        simp at h
        have hlen := matchCI_rest_len [':', '/', '/'] (c :: cs2) m r h2
        obtain ⟨-, hr⟩ := h
        subst hr
        simp only [List.length_cons] at hlen ⊢
        omega

/-- A `URL_RE` match strictly shortens the text to scan. -/
theorem matchUrlAt_rest_lt (cs m r : List Char)
    (h : matchUrlAt cs = some (m, r)) : r.length < cs.length := by
  unfold matchUrlAt at h
  cases h4 : matchCI ['h', 't', 't', 'p'] cs with
  | none => rw [h4] at h; simp at h
  | some pr =>
    obtain ⟨pre, rest⟩ := pr
    rw [h4] at h
    dsimp only at h
    have hl4 := matchCI_rest_len ['h', 't', 't', 'p'] cs pre rest h4
    simp at hl4
    cases hsep : matchSep pre rest with
    | none => rw [hsep] at h; simp at h
    | some pr2 =>
      obtain ⟨scheme, rest2⟩ := pr2
      rw [hsep] at h
      dsimp only at h
      have hl3 := matchSep_rest_le pre rest scheme rest2 hsep
      split at h
      · simp at h
      · simp at h
        obtain ⟨-, hr⟩ := h
        subst hr
        have hdrop : (rest2.drop (rest2.takeWhile urlCharOk).length).length ≤
            rest2.length := by
          rw [List.length_drop]
          omega
        omega

/-- The scan is insensitive to its fuel once the fuel covers the text
length; in particular `cs.length` fuel computes the full `finditer`
scan. -/
theorem scanURLsF_fuel (f1 : Nat) : ∀ (f2 : Nat) (cs : List Char),
    cs.length ≤ f1 → cs.length ≤ f2 → scanURLsF f1 cs = scanURLsF f2 cs := by
  induction f1 with
  | zero =>
    intro f2 cs h1 _
    have : cs = [] := List.length_eq_zero.mp (Nat.le_zero.mp h1)
    subst this
    cases f2 <;> simp [scanURLsF]
  | succ f ih =>
    intro f2 cs h1 h2
    cases cs with
    | nil => cases f2 <;> simp [scanURLsF]
    | cons c cs2 =>
      cases f2 with
      | zero => simp at h2
      | succ g =>
        simp only [scanURLsF]
        cases hm : matchUrlAt (c :: cs2) with
        | none =>
          dsimp only
          simp only [List.length_cons] at h1 h2
          exact ih g cs2 (by omega) (by omega)
        | some pr =>
          obtain ⟨m, r⟩ := pr
          dsimp only
          have hlt := matchUrlAt_rest_lt (c :: cs2) m r hm
          simp only [List.length_cons] at h1 h2 hlt
          rw [ih g r (by omega) (by omega)]

/-- The `try` body returns the path only in its success exit. -/
theorem dlBody_ok (b : DownloadBehavior) (q : String) (content : List Nat)
    (h : dlBody b = (.ok q, content)) :
    q = tmpPath ∧ content = streamBytes b.events ∧
      b.reqRaises = false ∧ b.status < 400 ∧ streamHasErr b.events = false := by
  unfold dlBody at h
  by_cases h1 : b.reqRaises = true
  · rw [if_pos h1] at h; simp at h
  · rw [if_neg h1] at h
    by_cases h2 : 400 ≤ b.status
    · rw [if_pos h2] at h; simp at h
    · rw [if_neg h2] at h
      rw [writeStream_spec] at h
      cases herr : streamHasErr b.events with
      | true => rw [herr] at h; simp at h
      | false =>
        rw [herr] at h
        simp at h
        obtain ⟨hq, hc⟩ := h
        refine ⟨hq.symm, by simpa using hc.symm, by simpa using h1, by omega, rfl⟩

/-- A successful download always reports the temporary path of the
invocation. -/
theorem download_ok_path (b : DownloadBehavior) (p : String)
    (f : Option (List Nat)) (h : download_to_tempfile b = (.ok p, f)) :
    p = tmpPath := by
  unfold download_to_tempfile at h
  cases hb : dlBody b with
  | mk r content =>
    rw [hb] at h
    cases r with
    | ok q =>
      simp at h
      obtain ⟨hq, -⟩ := h
      have hd := dlBody_ok b q content hb
      rw [← hq]
      exact hd.1
    | error e => simp at h

/-- The moderation delete is the only effect moderation can emit. -/
theorem modEffs_mem (msg : Msg) (e : Eff) (h : e ∈ modEffs msg) :
    e = .deleteMessage := by
  unfold modEffs at h
  cases hc : msg.chat with
  | none => rw [hc] at h; simp at h
  | some c =>
    rw [hc] at h
    dsimp only at h
    split at h
    · simpa using h
    · simp at h

/-- Moderation emits no plain-text message. -/
theorem modEffs_filter_sendMessage (msg : Msg) :
    (modEffs msg).filter isSendMessage = [] := by
  unfold modEffs
  cases hc : msg.chat with
  | none => rfl
  | some c =>
    dsimp only
    split
    · rfl
    · rfl

/-- Moderation emits no video delivery. -/
theorem modEffs_filter_sendVideo (msg : Msg) :
    (modEffs msg).filter isSendVideo = [] := by
  unfold modEffs
  cases hc : msg.chat with
  | none => rfl
  | some c =>
    dsimp only
    split
    · rfl
    · rfl

/-- A matched URL only arises from truthy text. -/
theorem text_truthy_of_match (msg : Msg) (url : String)
    (hmatch : _extract_tiktok_url_from_text msg.text = some url) :
    optTruthy msg.text = true := by
  cases h : msg.text with
  | none => rw [h] at hmatch; simp [_extract_tiktok_url_from_text] at hmatch
  | some t =>
    rw [h] at hmatch
    by_cases h0 : (t == "") = true
    · simp [_extract_tiktok_url_from_text, h0] at hmatch
    · simp [optTruthy]
      simpa using h0

/-- Once a URL is matched, the handler runs its matched body. -/
theorem handle_message_matched (msg : Msg) (env : Env) (url : String)
    (hmatch : _extract_tiktok_url_from_text msg.text = some url) :
    handle_message msg env = handleMatched msg env url := by
  have htr := text_truthy_of_match msg url hmatch
  unfold handle_message
  rw [htr, hmatch]
  rfl

/-- Probing a dictionary follows exactly the ordered field preference
stated by the spec. -/
theorem probeKeys_obj (ds : List (String × Json)) :
    probeKeys (.obj ds) = .ok (specPreference ds) := by
  show (if pyTruthy (lookupJson ds "hdplay") then
          Except.ok (some (lookupJson ds "hdplay"))
        else if pyTruthy (lookupJson ds "play") then
          Except.ok (some (lookupJson ds "play"))
        else if pyTruthy (lookupJson ds "wmplay") then
          Except.ok (some (lookupJson ds "wmplay"))
        else Except.ok none) = Except.ok (specPreference ds)
  unfold specPreference
  split
  · rfl
  · split
    · rfl
    · split
      · rfl
      · rfl

/-- The guarded probe `(dv or {})` never raises on a dict-like value
and computes the spec preference of that value. -/
theorem probeKeys_truthy_guard (dv : Json) (h : dictLike dv = true) :
    probeKeys (if pyTruthy dv then dv else .obj []) =
      .ok (specPreferenceJ dv) := by
  cases dv with
  | null => rfl
  | bool b =>
    have hb : b = false := by simpa [dictLike, pyTruthy] using h
    subst hb; rfl
  | num n =>
    have hn : n = 0 := by simpa [dictLike, pyTruthy] using h
    subst hn; rfl
  | str s =>
    have hs : s = "" := by simpa [dictLike, pyTruthy] using h
    subst hs; rfl
  | arr xs =>
    have hx : xs = [] := by simpa [dictLike, pyTruthy] using h
    subst hx; rfl
  | obj ds =>
    by_cases hds : ds.isEmpty = true
    · have : ds = [] := by simpa using hds
      subst this; rfl
    · have ht : pyTruthy (.obj ds) = true := by
        simp [pyTruthy]
        simpa using hds
      rw [if_pos ht, probeKeys_obj]
      rfl

/-- On a dict-like body whose `data` field is itself dict-like, the
extraction phase never raises and computes the spec preference of the
`data` record. -/
theorem extractMedia_dictLike (j : Json) (hbody : dictLike j = true)
    (hdata : dictLike (dataField j) = true) :
    extractMedia j = .ok (specPreferenceJ (dataField j)) := by
  cases j with
  | null => rfl
  | bool b =>
    have hb : b = false := by simpa [dictLike, pyTruthy] using hbody
    subst hb; rfl
  | num n =>
    have hn : n = 0 := by simpa [dictLike, pyTruthy] using hbody
    subst hn; rfl
  | str s =>
    have hs : s = "" := by simpa [dictLike, pyTruthy] using hbody
    subst hs; rfl
  | arr xs =>
    have hx : xs = [] := by simpa [dictLike, pyTruthy] using hbody
    subst hx; rfl
  | obj fs =>
    by_cases hfs : fs.isEmpty = true
    · have : fs = [] := by simpa using hfs
      subst this; rfl
    · have ht : pyTruthy (.obj fs) = true := by
        simp [pyTruthy]
        simpa using hfs
      unfold extractMedia
      rw [if_pos ht]
      exact probeKeys_truthy_guard (dataField (.obj fs)) hdata

/-- Every effect the handler emits has one of the shapes below, with
chat-scoped identifiers and the fixed caption and notice texts. -/
theorem mem_trace_cases (msg : Msg) (env : Env) (e : Eff)
    (he : e ∈ (handle_message msg env).1) :
    e = .deleteMessage ∨
    e = .sendChatAction msg.chat_id ∨
    (∃ u, e = .resolveRequest u) ∨
    e = .sendMessage msg.chat_id couldNotResolveText ∨
    (∃ v, e = .sendVideoUrl msg.chat_id v
      ("Send By : " ++ _display_name_from_msg msg)) ∨
    (∃ v, e = .downloadRequest v) ∨
    (∃ bs, e = .sendVideoBytes msg.chat_id bs
      ("Send By : " ++ _display_name_from_msg msg)) ∨
    (∃ p, e = .removeFile p) := by
  unfold handle_message at he
  by_cases hg : (!optTruthy msg.text) = true
  · rw [if_pos hg] at he
    simp at he
  · rw [if_neg hg] at he
    cases hx : _extract_tiktok_url_from_text msg.text with
    | none => rw [hx] at he; simp at he
    | some url =>
      rw [hx] at he
      dsimp only at he
      unfold handleMatched at he
      cases hr : resolve_tiktok_direct_url env.resolver with
      | raised =>
        rw [hr] at he
        dsimp only at he
        rcases List.mem_append.mp he with h1 | h2
        · exact Or.inl (modEffs_mem msg e h1)
        · simp at h2
          rcases h2 with h | h <;> subst h
          · exact Or.inr (Or.inl rfl)
          · exact Or.inr (Or.inr (Or.inl ⟨url, rfl⟩))
      | ret v =>
        cases v with
        | none =>
          rw [hr] at he
          dsimp only at he
          rcases List.mem_append.mp he with h1 | h2
          · exact Or.inl (modEffs_mem msg e h1)
          · simp at h2
            rcases h2 with h | h | h <;> subst h
            · exact Or.inr (Or.inl rfl)
            · exact Or.inr (Or.inr (Or.inl ⟨url, rfl⟩))
            · exact Or.inr (Or.inr (Or.inr (Or.inl rfl)))
        | some durl =>
          rw [hr] at he
          dsimp only at he
          by_cases href : (!env.refSendRaises) = true
          · rw [if_pos href] at he
            dsimp only at he
            rcases List.mem_append.mp he with h1 | h2
            · exact Or.inl (modEffs_mem msg e h1)
            · simp at h2
              rcases h2 with h | h | h <;> subst h
              · exact Or.inr (Or.inl rfl)
              · exact Or.inr (Or.inr (Or.inl ⟨url, rfl⟩))
              · exact Or.inr (Or.inr (Or.inr (Or.inr (Or.inl ⟨durl, rfl⟩))))
          · rw [if_neg href] at he
            rcases hd : download_to_tempfile env.dl with ⟨r, f⟩
            rw [hd] at he
            cases r with
            | error err =>
              dsimp only at he
              rcases List.mem_append.mp he with h1 | h2
              · exact Or.inl (modEffs_mem msg e h1)
              · simp at h2
                rcases h2 with h | h | h | h <;> subst h
                · exact Or.inr (Or.inl rfl)
                · exact Or.inr (Or.inr (Or.inl ⟨url, rfl⟩))
                · exact Or.inr (Or.inr (Or.inr (Or.inr (Or.inl ⟨durl, rfl⟩))))
                · exact Or.inr (Or.inr (Or.inr (Or.inr (Or.inr
                    (Or.inl ⟨durl, rfl⟩)))))
            | ok p =>
              dsimp only at he
              rcases List.mem_append.mp he with h1 | h2
              · exact Or.inl (modEffs_mem msg e h1)
              · simp at h2
                rcases h2 with h | h | h | h | h | h <;> subst h
                · exact Or.inr (Or.inl rfl)
                · exact Or.inr (Or.inr (Or.inl ⟨url, rfl⟩))
                · exact Or.inr (Or.inr (Or.inr (Or.inr (Or.inl ⟨durl, rfl⟩))))
                · exact Or.inr (Or.inr (Or.inr (Or.inr (Or.inr
                    (Or.inl ⟨durl, rfl⟩)))))
                · exact Or.inr (Or.inr (Or.inr (Or.inr (Or.inr (Or.inr
                    (Or.inl ⟨f.getD [], rfl⟩))))))
                · exact Or.inr (Or.inr (Or.inr (Or.inr (Or.inr (Or.inr
                    (Or.inr ⟨p, rfl⟩))))))

/-- The failure notice is the only plain-text message the pipeline can
ever send. -/
theorem sendMessage_text_unique (msg : Msg) (env : Env) (c : Int)
    (t : String) (h : Eff.sendMessage c t ∈ (handle_message msg env).1) :
    t = couldNotResolveText := by
  rcases mem_trace_cases msg env _ h with
    h1 | h1 | ⟨u, h1⟩ | h1 | ⟨v, h1⟩ | ⟨v, h1⟩ | ⟨bs, h1⟩ | ⟨p, h1⟩
  · simp at h1
  · simp at h1
  · simp at h1
  · simp at h1
    exact h1.2
  · simp at h1
  · simp at h1
  · simp at h1
  · simp at h1

/-- Every caption the pipeline attaches to a video delivery is the
formatted sender label after the fixed prefix. -/
theorem caption_shape (msg : Msg) (env : Env) (e : Eff) (cap : String)
    (he : e ∈ (handle_message msg env).1)
    (hc : captionOf e = some cap) :
    cap = "Send By : " ++ _display_name_from_msg msg := by
  rcases mem_trace_cases msg env e he with
    h1 | h1 | ⟨u, h1⟩ | h1 | ⟨v, h1⟩ | ⟨v, h1⟩ | ⟨bs, h1⟩ | ⟨p, h1⟩ <;>
      subst h1 <;> simp [captionOf] at hc <;> exact hc.symm

/-! # Claim theorems
-/

/-- C1: every transfer-manager call has exactly one of two outcomes:
on success the file at the returned path holds the fully streamed
bytes, and on any failure during the request, the status check or the
streaming, the exception is re-raised and no file remains at the
temporary path. -/
theorem c1_transfer_cleanup (b : DownloadBehavior) :
    (download_to_tempfile b = (.ok tmpPath, some (streamBytes b.events)) ∧
      b.reqRaises = false ∧ b.status < 400 ∧
      streamHasErr b.events = false) ∨
    download_to_tempfile b = (.error (), none) := by
  unfold download_to_tempfile
  cases hb : dlBody b with
  | mk r content =>
    cases r with
    | error e =>
      right
      dsimp only
    | ok q =>
      left
      obtain ⟨hq, hc, h1, h2, h3⟩ := dlBody_ok b q content hb
      subst hq
      subst hc
      exact ⟨rfl, h1, h2, h3⟩

/-- C2 (amended): when a matched message resolves to nothing the
handler sends exactly one plain-text message, the failure notice whose
apostrophe is the typographic U+2019 character, attempts no video
delivery and returns normally; and that notice is the only text any
run of the pipeline can ever send. -/
theorem c2_unresolved_single_notice (msg : Msg) (env : Env) (url : String)
    (hmatch : _extract_tiktok_url_from_text msg.text = some url)
    (hres : resolve_tiktok_direct_url env.resolver = .ret none) :
    (handle_message msg env).1.filter isSendMessage =
      [.sendMessage msg.chat_id couldNotResolveText] ∧
    (handle_message msg env).1.filter isSendVideo = [] ∧
    (handle_message msg env).2 = .normal ∧
    ∀ (msg2 : Msg) (env2 : Env) (c : Int) (t : String),
      Eff.sendMessage c t ∈ (handle_message msg2 env2).1 →
      t = couldNotResolveText := by
  rw [handle_message_matched msg env url hmatch]
  unfold handleMatched
  rw [hres]
  dsimp only
  refine ⟨?_, ?_, rfl,
    fun msg2 env2 c t ht => sendMessage_text_unique msg2 env2 c t ht⟩
  · rw [List.filter_append, modEffs_filter_sendMessage]
    rfl
  · rw [List.filter_append, modEffs_filter_sendVideo]
    rfl

/-- C2 counterexample: in the end-to-end scenario with an empty data
object, the single notice that is sent is not the claimed exact text
written with an ASCII apostrophe. -/
theorem c2_notice_text_cex :
    (handle_message msgDirect envUnresolved).1.filter isSendMessage =
      [.sendMessage 7 couldNotResolveText] ∧
    couldNotResolveText ≠
      "Couldn\x27t resolve that TikTok link. Try a different one?" :=
  ⟨rfl, by decide⟩

/-- C2 witness: the amended claim at the concrete scenario-C inputs. -/
theorem c2_witness :
    (handle_message msgDirect envUnresolved).1.filter isSendMessage =
      [.sendMessage 7 couldNotResolveText] ∧
    (handle_message msgDirect envUnresolved).1.filter isSendVideo = [] ∧
    (handle_message msgDirect envUnresolved).2 = .normal := by
  have h := c2_unresolved_single_notice msgDirect envUnresolved
    "https://vm.tiktok.com/ZMxyz/" rfl rfl
  exact ⟨h.1, h.2.1, h.2.2.1⟩

/-- C3: whenever the scanned URLs of a text decompose around its first
allow-listed entry, the matcher returns exactly that entry and ignores
everything after it. -/
theorem c3_first_allowlisted (text : String) (pre : List String)
    (u : String) (suf : List String)
    (hsplit : scanURLs text.data = pre ++ u :: suf)
    (hu : _is_tiktok_link u = true)
    (hpre : ∀ v ∈ pre, _is_tiktok_link v = false) :
    _extract_tiktok_url_from_text (some text) = some u := by
  by_cases h0 : (text == "") = true
  · have ht : text = "" := by simpa using h0
    subst ht
    have hnil : scanURLs "".data = ([] : List String) := rfl
    rw [hnil] at hsplit
    simp at hsplit
  · show (if text == "" then none
          else (scanURLs text.data).find? _is_tiktok_link) = some u
    rw [if_neg h0, hsplit]
    exact find?_append_first _ pre u suf hpre hu

/-- C3 witness: a mixed-case TikTok URL with a port is returned even
though a foreign URL and a malformed bracket URL (on which `urlparse`
raises and the program answers non-matching) precede it. -/
theorem c3_witness :
    _extract_tiktok_url_from_text msgTwoUrls.text =
      some "hTTpS://VM.TikTok.com:443/Zxy" :=
  c3_first_allowlisted
    "x HTTP://example.com/a http://tiktok.com:[80 hTTpS://VM.TikTok.com:443/Zxy z"
    ["HTTP://example.com/a", "http://tiktok.com:[80"]
    "hTTpS://VM.TikTok.com:443/Zxy" []
    rfl rfl (by decide)

/-- C4 counterexample: a 200 response whose JSON body is the number 1,
or whose data field is a non-empty string, drives the unprotected
extraction phase into an attribute error that escapes the resolver
instead of yielding no media found. -/
theorem c4_nondict_raises_cex :
    resolve_tiktok_direct_url ⟨false, 200, false, .num 1⟩ = .raised ∧
    resolve_tiktok_direct_url
        ⟨false, 200, false, .obj [("data", .str "x")]⟩ = .raised :=
  ⟨rfl, rfl⟩

/-- C4 (amended): provided the body and its data field are
dictionaries or falsy, the resolver never raises: transport failures,
non-200 statuses and parse failures yield no media found, and
otherwise the ordered field preference of the data record decides. -/
theorem c4_shape_tolerance (b : ResolverBehavior)
    (hbody : dictLike b.body = true)
    (hdata : dictLike (dataField b.body) = true) :
    resolve_tiktok_direct_url b =
      .ret (if b.reqRaises || (b.status != 200) || b.bodyRaises then none
            else specPreferenceJ (dataField b.body)) := by
  unfold resolve_tiktok_direct_url
  by_cases h1 : b.reqRaises = true
  · rw [if_pos h1, h1]
    rfl
  · have h1f : b.reqRaises = false := by simpa using h1
    rw [if_neg h1, h1f]
    by_cases h2 : (b.status != 200) = true
    · rw [if_pos h2, h2]
      rfl
    · have h2f : (b.status != 200) = false := by simpa using h2
      rw [if_neg h2, h2f]
      by_cases h3 : b.bodyRaises = true
      · rw [if_pos h3, h3]
        rfl
      · have h3f : b.bodyRaises = false := by simpa using h3
        rw [if_neg h3, h3f]
        rw [extractMedia_dictLike b.body hbody hdata]
        rfl

/-- C4 witness: a well-shaped 200 response yields its HD URL without
raising. -/
theorem c4_witness :
    resolve_tiktok_direct_url resolverHd =
      .ret (some (.str "https://cdn/x.mp4")) :=
  (c4_shape_tolerance resolverHd rfl rfl).trans rfl

/-- C5: a successful 200 response whose data record is a dictionary is
decided by the ordered preference hdplay, play, wmplay, first truthy
value wins, no media found when none is. -/
theorem c5_field_preference (d : List (String × Json)) :
    resolve_tiktok_direct_url
        ⟨false, 200, false, .obj [("data", .obj d)]⟩ =
      .ret (specPreference d) := by
  have h := extractMedia_dictLike (.obj [("data", .obj d)]) rfl rfl
  show (match extractMedia (.obj [("data", .obj d)]) with
        | .ok v => ROutcome.ret v
        | .error _ => ROutcome.raised) = .ret (specPreference d)
  rw [h]
  rfl

/-- C6: the identity formatter is total and never empty, and follows
the strict priority handle, then joined name parts, then numeric id,
then the literal unknown. -/
theorem c6_identity_priority (msg : Msg) :
    _display_name_from_msg msg ≠ "" ∧
    (msg.from_user = none → _display_name_from_msg msg = "unknown") ∧
    (∀ u, msg.from_user = some u → optTruthy u.username = true →
      _display_name_from_msg msg = "@" ++ u.username.getD "") ∧
    (∀ u, msg.from_user = some u → optTruthy u.username = false →
      nameParts u ≠ [] →
      _display_name_from_msg msg = joinSpace (nameParts u)) ∧
    (∀ u, msg.from_user = some u → optTruthy u.username = false →
      nameParts u = [] → _display_name_from_msg msg = toString u.id) := by
  refine ⟨display_name_ne_empty msg, ?_, ?_, ?_, ?_⟩
  · intro h
    unfold _display_name_from_msg
    rw [h]
  · intro u hu htr
    unfold _display_name_from_msg
    rw [hu]
    dsimp only
    rw [if_pos htr]
  · intro u hu hfa hne
    unfold _display_name_from_msg
    rw [hu]
    dsimp only
    rw [if_neg (by simp [hfa])]
    have hj := joinSpace_ne_empty (nameParts u) hne (nameParts_nonempty_strings u)
    rw [if_pos (by simpa using hj)]
  · intro u hu hfa hemp
    unfold _display_name_from_msg
    rw [hu]
    dsimp only
    rw [if_neg (by simp [hfa]), hemp]
    rfl

/-- C6 witness: all four priority branches at concrete senders. -/
theorem c6_witness :
    _display_name_from_msg msgDirect = "@alice" ∧
    _display_name_from_msg ⟨some "t", 1, none, none⟩ = "unknown" ∧
    _display_name_from_msg ⟨some "t", 1, none, some userAnnLee⟩ =
      "Ann Lee" ∧
    _display_name_from_msg ⟨some "t", 1, none, some userIdOnly⟩ = "42" := by
  refine ⟨?_, ?_, ?_, ?_⟩
  · exact ((c6_identity_priority msgDirect).2.2.1 userAlice rfl rfl).trans rfl
  · exact (c6_identity_priority _).2.1 rfl
  · exact ((c6_identity_priority _).2.2.2.1 userAnnLee rfl rfl
      (by decide)).trans rfl
  · exact ((c6_identity_priority _).2.2.2.2 userIdOnly rfl rfl rfl).trans rfl

/-- C7: a message with falsy text or no allow-listed URL is discarded
with no outbound call of any kind and a normal return. -/
theorem c7_silent_discard (msg : Msg) (env : Env)
    (h : optTruthy msg.text = false ∨
      _extract_tiktok_url_from_text msg.text = none) :
    handle_message msg env = ([], .normal) := by
  unfold handle_message
  rcases h with h | h
  · rw [h]
    rfl
  · by_cases hg : (!optTruthy msg.text) = true
    · rw [if_pos hg]
    · rw [if_neg hg, h]

/-- C7 witness: the no-link message, and the message whose only URL
makes `urlparse` raise inside the matcher, both produce no effect at
all. -/
theorem c7_witness :
    handle_message msgNoLink envRefOk = ([], .normal) ∧
    handle_message msgBracket envRefOk = ([], .normal) :=
  ⟨c7_silent_discard msgNoLink envRefOk (Or.inr rfl),
    c7_silent_discard msgBracket envRefOk (Or.inr rfl)⟩

/-- C8 (amended): every caption attached to a delivered video, by
reference or by bytes, is the identity formatter value appended
verbatim to the fixed prefix, and that value is never empty. -/
theorem c8_caption_embeds_identity (msg : Msg) (env : Env) (e : Eff)
    (cap : String) (he : e ∈ (handle_message msg env).1)
    (hc : captionOf e = some cap) :
    cap = "Send By : " ++ _display_name_from_msg msg ∧
    _display_name_from_msg msg ≠ "" :=
  ⟨caption_shape msg env e cap he hc, display_name_ne_empty msg⟩

/-- C8 counterexample: a delivered video carries the caption of the
code, which is not the claimed caption form. -/
theorem c8_caption_cex :
    Eff.sendVideoUrl 7 (.str "https://cdn/x.mp4") "Send By : @alice" ∈
      (handle_message msgDirect envRefOk).1 ∧
    "Send By : @alice" ≠ "Sent by: " ++ _display_name_from_msg msgDirect := by
  constructor
  · exact List.mem_cons_of_mem _ (List.mem_cons_of_mem _
      (List.mem_cons_self _ _))
  · decide

/-- C8 witness: the amended claim at the concrete reference-send
run. -/
theorem c8_witness :
    "Send By : @alice" =
      "Send By : " ++ _display_name_from_msg msgDirect ∧
    _display_name_from_msg msgDirect ≠ "" :=
  c8_caption_embeds_identity msgDirect envRefOk
    (.sendVideoUrl 7 (.str "https://cdn/x.mp4") "Send By : @alice")
    "Send By : @alice"
    (List.mem_cons_of_mem _ (List.mem_cons_of_mem _
      (List.mem_cons_self _ _)))
    rfl

/-- C9: when the reference send raises, the download succeeds and the
byte upload raises, the exception escapes the handler, no user notice
is sent, and the temporary file is still removed before the exception
leaves. -/
theorem c9_fallback_upload_raise (msg : Msg) (env : Env) (url : String)
    (durl : Json)
    (hmatch : _extract_tiktok_url_from_text msg.text = some url)
    (hres : resolve_tiktok_direct_url env.resolver = .ret (some durl))
    (href : env.refSendRaises = true)
    (hdl : (download_to_tempfile env.dl).1 = Except.ok tmpPath)
    (hup : env.uploadRaises = true) :
    (handle_message msg env).2 = .raised ∧
    (handle_message msg env).1.filter isSendMessage = [] ∧
    Eff.removeFile tmpPath ∈ (handle_message msg env).1 := by
  rw [handle_message_matched msg env url hmatch]
  unfold handleMatched
  rw [hres]
  dsimp only
  rw [if_neg (by simp [href])]
  rcases hd : download_to_tempfile env.dl with ⟨r, f⟩
  rw [hd] at hdl
  simp at hdl
  subst hdl
  dsimp only
  rw [if_pos hup]
  refine ⟨rfl, ?_, ?_⟩
  · rw [List.filter_append, modEffs_filter_sendMessage]
    rfl
  · simp

/-- C9 witness: the fallback-then-upload-failure scenario at concrete
inputs. -/
theorem c9_witness :
    (handle_message msgDirect envUploadFail).2 = .raised ∧
    Eff.removeFile tmpPath ∈ (handle_message msgDirect envUploadFail).1 := by
  have h := c9_fallback_upload_raise msgDirect envUploadFail
    "https://vm.tiktok.com/ZMxyz/" (.str "https://cdn/x.mp4")
    rfl rfl rfl rfl rfl
  exact ⟨h.1, h.2.2⟩

/-- C10: any response status other than 200, including the other 2xx
codes, yields no media found, whatever the body or its parse do. -/
theorem c10_strict_200 (status : Nat) (bodyRaises : Bool) (body : Json)
    (h : status ≠ 200) :
    resolve_tiktok_direct_url ⟨false, status, bodyRaises, body⟩ =
      .ret none := by
  have hb : (status != 200) = true := by simpa using h
  simp [resolve_tiktok_direct_url, hb]

/-- C10 witness: a 201 status with an unparsable, non-dictionary body
still returns no media found. -/
theorem c10_witness :
    (201 : Nat) ≠ 200 ∧
    resolve_tiktok_direct_url ⟨false, 201, true, .num 1⟩ = .ret none :=
  ⟨by decide, c10_strict_200 201 true (.num 1) (by decide)⟩

end TiktokTg
